import Mathlib

/-!
# Verification of the `tagger` filter engine and storage layer

Shallow embedding of the `kiljacken/tagger` Go repository:

* the tag model (`tagger.go`: `NamedTag`, `ValueTag`),
* the filter AST and evaluator (`filter.go`: `NameFilter`,
  `ComparinsonFilter`, `AndFilter`, `OrFilter` and their `Matches`),
* the generated LALR parser for filter expressions (the `go tool yacc`
  output of `filterparse.y`: tables `yyAct`, `yyPact`, `yyPgo`, `yyR1`,
  `yyR2`, `yyChk`, `yyDef`, `yyExca` and the driver `yyParse`),
* the lexer feeding the parser (not present in the sources; modelled
  from the spec),
* the sqlite storage layer (`storage/sqlite.go`: `GetMatchingFiles`,
  `RemoveTag`), with the database modelled as explicit state.

Go `int` is modelled as `Int` (the program only compares and stores tag
values; no arithmetic overflow is involved).
-/

namespace Tagger

/-- The tag variants of `tagger.go`: `NamedTag` is a tag with just a
name, `ValueTag` has a name and an integer value. -/
inductive Tag where
  | NamedTag (name : String)
  | ValueTag (name : String) (value : Int)
  deriving Repr, DecidableEq

/-- `Name()` of a tag. -/
def Tag.Name : Tag → String
  | .NamedTag n => n
  | .ValueTag n _ => n

/-- `HasValue()`: `false` for `NamedTag`, `true` for `ValueTag`. -/
def Tag.HasValue : Tag → Bool
  | .NamedTag _ => false
  | .ValueTag _ _ => true

/-- `Value()`: `-1` on a named tag (source sentinel), the stored value
on a value tag. -/
def Tag.Value : Tag → Int
  | .NamedTag _ => -1
  | .ValueTag _ v => v

/-- Go `type Comparator int`. Kept as an integer (not a closed enum)
because the source's `switch` treats every value outside `1..6` alike. -/
abbrev Comparator := Int

/-- `Invalid Comparator = iota` -/
def Comparator.Invalid : Comparator := 0
/-- `Equals` -/
def Comparator.Equals : Comparator := 1
/-- `NotEquals` -/
def Comparator.NotEquals : Comparator := 2
/-- `LessThan` -/
def Comparator.LessThan : Comparator := 3
/-- `GreaterThan` -/
def Comparator.GreaterThan : Comparator := 4
/-- `LessThanOrEqual` -/
def Comparator.LessThanOrEqual : Comparator := 5
/-- `GreaterThanOrEqual` -/
def Comparator.GreaterThanOrEqual : Comparator := 6

/-- `ComparatorFromString` of `filter.go`. -/
def ComparatorFromString (val : String) : Comparator :=
  if val == "==" then Comparator.Equals
  else if val == "!=" then Comparator.NotEquals
  else if val == "<" then Comparator.LessThan
  else if val == ">" then Comparator.GreaterThan
  else if val == "<=" then Comparator.LessThanOrEqual
  else if val == ">=" then Comparator.GreaterThanOrEqual
  else Comparator.Invalid

/-- The filter AST of `filter.go`, as a closed inductive: the Go code
uses an interface with exactly these four implementations. -/
inductive Filter where
  | NameFilter (Name : String)
  | ComparinsonFilter (Name : String) (Value : Int) (Function : Comparator)
  | AndFilter (Filters : List Filter)
  | OrFilter (Filters : List Filter)
  deriving Repr

/-- The loop body of `NameFilter.Matches`: scan the tags, return `true`
on the first tag whose name equals the filter's name. -/
def nameMatches (n : String) : List Tag → Bool
  | [] => false
  | tag :: rest => if tag.Name == n then true else nameMatches n rest

/-- The loop body of `ComparinsonFilter.Matches`: scan the tags; on the
first tag whose name matches, if it has no value return `false`,
otherwise dispatch on the comparator.  A comparator outside `1..6` hits
the `switch` default (no case), so the Go loop falls through and
continues with the remaining tags. -/
def compMatches (n : String) (v : Int) (fn : Comparator) : List Tag → Bool
  | [] => false
  | tag :: rest =>
    if tag.Name == n then
      if !tag.HasValue then false
      else if fn == Comparator.Equals then tag.Value == v
      else if fn == Comparator.NotEquals then tag.Value != v
      else if fn == Comparator.LessThan then decide (tag.Value < v)
      else if fn == Comparator.GreaterThan then decide (tag.Value > v)
      else if fn == Comparator.LessThanOrEqual then decide (tag.Value ≤ v)
      else if fn == Comparator.GreaterThanOrEqual then decide (tag.Value ≥ v)
      else compMatches n v fn rest
    else compMatches n v fn rest

mutual

/-- `Matches` dispatched over the four filter kinds, as in `filter.go`. -/
def Filter.Matches : Filter → List Tag → Bool
  | .NameFilter n, tags => nameMatches n tags
  | .ComparinsonFilter n v fn, tags => compMatches n v fn tags
  | .AndFilter fs, tags => andMatches fs tags
  | .OrFilter fs, tags => orMatches fs tags
termination_by structural f => f

/-- The loop of `AndFilter.Matches`: `false` as soon as one child fails,
`true` after the loop. -/
def andMatches : List Filter → List Tag → Bool
  | [], _ => true
  | f :: fs, tags => if f.Matches tags then andMatches fs tags else false
termination_by structural l => l

/-- The loop of `OrFilter.Matches`: `true` as soon as one child matches,
`false` after the loop. -/
def orMatches : List Filter → List Tag → Bool
  | [], _ => false
  | f :: fs, tags => if f.Matches tags then true else orMatches fs tags
termination_by structural l => l

end

/-!
## The generated LALR parser

The tables below are copied verbatim from the `go tool yacc` output of
`filterparse.y` that ships with the sources.  Internal token codes (the
output of `yylex1`): end-of-input 1, `TAG` 4, `VAL` 5, `COMP` 6,
`AND` 7, `OR` 8, `LPAREN` 9, `RPAREN` 10.
-/

def yyExca : List Int := [-1, 1, 1, -1, -2, 0]

def yyLast : Int := 23

def yyAct : List Int :=
  [2, 10, 11, 9, 20, 10, 11, 12, 8, 14, 13, 16, 17, 18, 19, 15, 21, 1, 7, 6, 5, 4, 3]

def yyPact : List Int :=
  [-1, -1000, -2, -1000, 0, 2, -1000, -1000, -1, 9, -1, -1, -1, -1, -6, 11, -2, -2, -2, -2, -1000, -1000]

def yyPgo : List Int := [0, 0, 22, 21, 20, 19, 18, 17]

def yyR1 : List Int := [0, 7, 1, 1, 1, 1, 1, 2, 3, 3, 4, 4, 5, 6]

def yyR2 : List Int := [0, 1, 1, 1, 1, 1, 1, 3, 3, 3, 3, 3, 3, 1]

def yyChk : List Int :=
  [-1000, -7, -1, -2, -3, -4, -5, -6, 9, 4, 7, 8, 7, 8, -1, 6, -1, -1, -1, -1, 10, 5]

def yyDef : List Int :=
  [0, -2, 1, 2, 3, 4, 5, 6, 0, 13, 0, 0, 0, 0, 0, 0, 9, 11, 8, 10, 7, 12]

/-- Table lookup with the Go slice index made total (every access the
driver performs is in range; an out-of-range read returns 0). -/
def tbl (l : List Int) (i : Int) : Int :=
  if 0 ≤ i then l.getD i.toNat 0 else 0

/-- The tokens the lexer hands to the parser (`TAG`, `VAL`, `COMP`,
`AND`, `OR`, `LPAREN`, `RPAREN` of `filterparse.y`). -/
inductive Token where
  | TAG (s : String)
  | VAL (n : Int)
  | COMP (c : Comparator)
  | AND
  | OR
  | LPAREN
  | RPAREN
  deriving Repr

/-- The internal token code produced by `yylex1` for each token. -/
def tokenCode : Token → Int
  | .TAG _ => 4
  | .VAL _ => 5
  | .COMP _ => 6
  | .AND => 7
  | .OR => 8
  | .LPAREN => 9
  | .RPAREN => 10

/-- `yySymType` of the generated parser (without the `yys` field, which
the embedding tracks alongside in the stack).  Go zero values: `nil`
filter, empty tag, `0` value, `0` comparator. -/
structure yySymType where
  filter : Option Filter
  tag : String
  val : Int
  comp : Comparator
  deriving Repr

def zeroSym : yySymType := { filter := none, tag := "", val := 0, comp := 0 }

/-- The `yylval` payload the lexer stores for a token. -/
def tokenLval : Token → yySymType
  | .TAG s => { zeroSym with tag := s }
  | .VAL n => { zeroSym with val := n }
  | .COMP c => { zeroSym with comp := c }
  | _ => zeroSym

/-- First loop of the `yyDef = -2` exception handling: skip to the
`yyExca` row of the current state. -/
def excaRow (state : Int) : List Int → List Int
  | a :: b :: rest => if a == -1 && b == state then rest else excaRow state rest
  | _ => []

/-- Second loop: inside the state's row, find the entry for the
lookahead (an entry `< 0` is the row's default). -/
def excaAct (code : Int) : List Int → Int
  | a :: b :: rest => if a < 0 || a == code then b else excaAct code rest
  | _ => 0

/-- The semantic action of reduction `r` (the `switch yynt` of the
generated `yyParse`), applied to the popped slots `args` (`args[0]` is
`$1`).  Returns the new `yyVAL` and the parser result (`lex.filter`,
which production 1 assigns).  `none` models a Go runtime panic: the
type assertion `$1.(AndFilter)`/`$1.(OrFilter)` failing, or a `nil`
filter reaching a child list (neither is reachable from the start
state). -/
def reduceAction (r : Int) (args : List yySymType) (result : Option Filter) :
    Option (yySymType × Option Filter) :=
  let a1 := args.getD 0 zeroSym
  let a2 := args.getD 1 zeroSym
  let a3 := args.getD 2 zeroSym
  if r == 1 then
    -- goal: yylex.(*lex).filter = $1
    some (a1, a1.filter)
  else if r == 2 || r == 3 || r == 4 || r == 5 || r == 6 then
    -- expr := paren | and_expr | or_expr | comp | tag
    some (a1, result)
  else if r == 7 then
    -- paren := LPAREN expr RPAREN
    some ({ a1 with filter := a2.filter }, result)
  else if r == 8 then
    -- and_expr := and_expr AND expr
    match a1.filter, a3.filter with
    | some (.AndFilter fs), some f =>
      some ({ a1 with filter := some (.AndFilter (fs ++ [f])) }, result)
    | _, _ => none
  else if r == 9 then
    -- and_expr := expr AND expr
    match a1.filter, a3.filter with
    | some f1, some f3 =>
      some ({ a1 with filter := some (.AndFilter [f1, f3]) }, result)
    | _, _ => none
  else if r == 10 then
    -- or_expr := or_expr OR expr
    match a1.filter, a3.filter with
    | some (.OrFilter fs), some f =>
      some ({ a1 with filter := some (.OrFilter (fs ++ [f])) }, result)
    | _, _ => none
  else if r == 11 then
    -- or_expr := expr OR expr
    match a1.filter, a3.filter with
    | some f1, some f3 =>
      some ({ a1 with filter := some (.OrFilter [f1, f3]) }, result)
    | _, _ => none
  else if r == 12 then
    -- comp := TAG COMP VAL
    some ({ a1 with filter := some (.ComparinsonFilter a1.tag a3.val a2.comp) }, result)
  else if r == 13 then
    -- tag := TAG
    some ({ a1 with filter := some (.NameFilter a1.tag) }, result)
  else
    none

/-- The `yyParse` driver loop of the generated parser.  Each call is
one pass through the `yystack` label: push `(state, vals)`, then either
shift (consuming the lookahead), reduce (keeping it), accept (via the
`yyExca` table) or fail.  `look` caches the fetched lookahead
(`yychar`/`yylval`; `none` when `yychar = -1`), `toks` is the remaining
lexer output, `result` is the filter stored by the `goal` action.
Error recovery is modelled as failure: this grammar has no `error`
productions, so the Go recovery loop always pops the whole stack and
returns 1.  Fuel bounds the loop. -/
def yyStep : Nat → Int → yySymType → List (Int × yySymType) →
    Option (Int × yySymType) → List Token → Option Filter → Option Filter
  | 0, _, _, _, _, _, _ => none
  | Nat.succ fuel, state, vals, stack, look, toks, result =>
    let stack1 := (state, vals) :: stack
    -- resolve the lookahead (yylex1 returns 1 at end of input)
    let fetched : Int × yySymType × List Token :=
      match look with
      | some (c, lv) => (c, lv, toks)
      | none =>
        match toks with
        | [] => (1, zeroSym, [])
        | t :: ts => (tokenCode t, tokenLval t, ts)
    let code := fetched.1
    let lval := fetched.2.1
    let toks1 := fetched.2.2
    -- try a shift: yyn = yyPact[state] + code, then yyAct/yyChk
    let n := tbl yyPact state
    let n1 := n + code
    let shiftTo : Option Int :=
      if n ≤ -1000 then none
      else if n1 < 0 || yyLast ≤ n1 then none
      else
        let m := tbl yyAct n1
        if tbl yyChk m == code then some m else none
    match shiftTo with
    | some m => yyStep fuel m lval stack1 none toks1 result
    | none =>
      -- default action for the state
      let d := tbl yyDef state
      let act := if d == -2 then excaAct code (excaRow state yyExca) else d
      if d == -2 && act < 0 then
        -- accept (ret0): ParseFilter reads lex.filter
        result
      else if act == 0 then
        -- syntax error; no state shifts the error token, so ret1
        none
      else
        -- reduction by production act
        let r2 := (tbl yyR2 act).toNat
        let args := (stack1.take r2).reverse.map Prod.snd
        let rest := stack1.drop r2
        let exposed := match rest with | (s, _) :: _ => s | [] => 0
        match reduceAction act args result with
        | none => none
        | some (newVal, result1) =>
          -- goto: consult yyPgo/yyAct/yyChk for the next state
          let nt := tbl yyR1 act
          let g := tbl yyPgo nt
          let j := g + exposed + 1
          let ns :=
            if yyLast ≤ j then tbl yyAct g
            else
              let cand := tbl yyAct j
              if tbl yyChk cand == -nt then cand else tbl yyAct g
          yyStep fuel ns newVal rest (some (code, lval)) toks1 result1

/-- `yyParse` on a token stream.  The fuel is generous: between two
token consumptions the automaton performs at most a bounded number of
reductions (the stack only shrinks on reduction). -/
def yyParse (toks : List Token) : Option Filter :=
  yyStep (100 * (toks.length + 2)) 0 zeroSym [] none toks none

/-!
## The lexer (modelled from the spec)

The tokenizer behind `ParseFilter` is not among the provided sources
(only its parser is); it is modelled from spec §4.2: whitespace
separates tokens, `(`/`)` are parentheses, the six comparator symbols
`==`, `!=`, `<`, `>`, `<=`, `>=` (maximal munch), integer literals are
an optional `-` followed by digits (a bare `-` is a lex error), an
identifier is a maximal run of non-whitespace, non-operator, non-paren
characters, and the exact identifiers `AND`/`OR` are the keywords.
-/

def isSpaceChar (c : Char) : Bool :=
  c == ' ' || c == '\t' || c == '\n' || c == '\r'

def isOpChar (c : Char) : Bool :=
  c == '<' || c == '>' || c == '=' || c == '!'

def isParenChar (c : Char) : Bool :=
  c == '(' || c == ')'

def isIdentChar (c : Char) : Bool :=
  !(isSpaceChar c || isOpChar c || isParenChar c)

/-- Numeric value of a digit run. -/
def digitsVal (ds : List Char) : Nat :=
  ds.foldl (fun a c => 10 * a + (c.toNat - 48)) 0

/-- Keyword or tag name. -/
def identToken (s : String) : Token :=
  if s == "AND" then Token.AND
  else if s == "OR" then Token.OR
  else Token.TAG s

/-- Modelled from the spec: one tokenizing pass over the character
stream; `none` is a `LexError`.  Fuel: every step consumes at least one
character. -/
def lexLoop : Nat → List Char → Option (List Token)
  | 0, _ => none
  | _, [] => some []
  | Nat.succ fuel, c :: rest =>
    if isSpaceChar c then lexLoop fuel rest
    else if c == '(' then (lexLoop fuel rest).map (fun ts => Token.LPAREN :: ts)
    else if c == ')' then (lexLoop fuel rest).map (fun ts => Token.RPAREN :: ts)
    else if c == '<' then
      match rest with
      | '=' :: r2 => (lexLoop fuel r2).map (fun ts => Token.COMP Comparator.LessThanOrEqual :: ts)
      | _ => (lexLoop fuel rest).map (fun ts => Token.COMP Comparator.LessThan :: ts)
    else if c == '>' then
      match rest with
      | '=' :: r2 => (lexLoop fuel r2).map (fun ts => Token.COMP Comparator.GreaterThanOrEqual :: ts)
      | _ => (lexLoop fuel rest).map (fun ts => Token.COMP Comparator.GreaterThan :: ts)
    else if c == '=' then
      match rest with
      | '=' :: r2 => (lexLoop fuel r2).map (fun ts => Token.COMP Comparator.Equals :: ts)
      | _ => none
    else if c == '!' then
      match rest with
      | '=' :: r2 => (lexLoop fuel r2).map (fun ts => Token.COMP Comparator.NotEquals :: ts)
      | _ => none
    else if c.isDigit || c == '-' then
      let body := if c == '-' then rest else c :: rest
      let ds := body.takeWhile Char.isDigit
      let rem := body.dropWhile Char.isDigit
      if ds.isEmpty then none
      else
        let n : Int := Int.ofNat (digitsVal ds)
        (lexLoop fuel rem).map (fun ts => Token.VAL (if c == '-' then -n else n) :: ts)
    else
      let id := (c :: rest).takeWhile isIdentChar
      let rem := (c :: rest).dropWhile isIdentChar
      (lexLoop fuel rem).map (fun ts => identToken (String.mk id) :: ts)

/-- Modelled from the spec: `ParseFilter` (absent from the provided
sources) composes the tokenizer with the generated `yyParse` and fails
on any lex or parse error. -/
def ParseFilter (s : String) : Option Filter :=
  match lexLoop (s.length + 1) s.data with
  | none => none
  | some toks => yyParse toks

/-!
## The sqlite storage layer

`storage/sqlite.go` keeps two tables, `file(uuid, path)` and
`tags(uuid, name, value)` (`value` nullable).  The database state is
modelled as explicit row lists; `uuid.UUID` is modelled as a string
(the Go code only ever passes `UUID().String()` to the database).
-/

/-- `tagger.File`: a UUID paired with a path. -/
structure File where
  uuid : String
  path : String
  deriving Repr, DecidableEq

/-- A row of the `tags` table: `value` is `NULL` for a plain tag. -/
structure TagRow where
  uuid : String
  name : String
  value : Option Int
  deriving Repr, DecidableEq

/-- A row of the `file` table. -/
structure FileRow where
  uuid : String
  path : String
  deriving Repr, DecidableEq

/-- The database state behind a `SqliteStorage`. -/
structure SqliteDB where
  files : List FileRow
  tags : List TagRow
  deriving Repr, DecidableEq

/-- `RemoveTag` of `storage/sqlite.go`: it executes
`DELETE FROM tags WHERE uuid = ? AND name = ?` with the file's UUID and
the tag's name and returns the statement's error.  The DELETE has
standard SQL semantics, modelled here directly: drop exactly the rows
matching the WHERE clause; deleting zero rows is not an error, so the
function only fails on a database fault, never on a missing tag. -/
def RemoveTag (db : SqliteDB) (f : File) (t : Tag) : SqliteDB × Option String :=
  ({ db with tags := db.tags.filter (fun r => !(r.uuid == f.uuid && r.name == t.Name)) },
   none)

/-- The `for _, file := range files` loop of `GetMatchingFiles`:
fetch each file's tags, fail fast on a fetch error, append the file to
the accumulator when the filter matches. -/
def matchingLoop (getTags : File → Except String (List Tag)) (flt : Filter) :
    List File → List File → Except String (List File)
  | acc, [] => Except.ok acc
  | acc, file :: rest =>
    match getTags file with
    | .error e => .error e
    | .ok tags =>
      matchingLoop getTags flt (if flt.Matches tags then acc ++ [file] else acc) rest

/-- `GetMatchingFiles` of `storage/sqlite.go`, with the two database
reads it performs (`s.GetAllFiles()`, `s.GetTags(file)`) supplied as
oracles: get ALL files, then run `matchingLoop` over them with an empty
accumulator. -/
def GetMatchingFiles (getAllFiles : Except String (List File))
    (getTags : File → Except String (List Tag)) (flt : Filter) :
    Except String (List File) :=
  match getAllFiles with
  | .error e => .error e
  | .ok files => matchingLoop getTags flt [] files

/-!
## Spec-side definitions and concrete fixtures

`comparatorDenotes` is written from the spec's words ("the
mathematically correct boolean for `x op v`"), to be compared with the
evaluator's behaviour.  The `w`-prefixed definitions are the concrete
scenario of spec §8 (files F1 `{role=1, status}` and F2 `{role=2}`),
used to instantiate the storage theorems.
-/

/-- The mathematical meaning of the six comparators on two integers. -/
def comparatorDenotes (fn : Comparator) (x v : Int) : Bool :=
  if fn == Comparator.Equals then x == v
  else if fn == Comparator.NotEquals then x != v
  else if fn == Comparator.LessThan then decide (x < v)
  else if fn == Comparator.GreaterThan then decide (x > v)
  else if fn == Comparator.LessThanOrEqual then decide (x ≤ v)
  else if fn == Comparator.GreaterThanOrEqual then decide (x ≥ v)
  else false

/-- Fixture file F1. -/
def wFile1 : File := { uuid := "u1", path := "f1" }

/-- Fixture file F2. -/
def wFile2 : File := { uuid := "u2", path := "f2" }

/-- Fixture tag sets: F1 has `role=1` and plain `status`, F2 has
`role=2`. -/
def wTagsOf (f : File) : List Tag :=
  if f.uuid == "u1" then [Tag.ValueTag "role" 1, Tag.NamedTag "status"]
  else [Tag.ValueTag "role" 2]

/-- A tag-fetch oracle that always succeeds with `wTagsOf`. -/
def wGetTags (f : File) : Except String (List Tag) := Except.ok (wTagsOf f)

/-- A tag-fetch oracle that fails on every file except F1. -/
def wGetTagsBad (f : File) : Except String (List Tag) :=
  if f.uuid == "u1" then Except.ok (wTagsOf f) else Except.error "disk fault"

/-- The filter `role == 1 OR status`. -/
def wFilter : Filter :=
  Filter.OrFilter
    [Filter.ComparinsonFilter "role" 1 Comparator.Equals, Filter.NameFilter "status"]

/-- Fixture database: one file `u1` carrying the single tag `role=1`. -/
def wDB : SqliteDB :=
  { files := [{ uuid := "u1", path := "f1" }],
    tags := [{ uuid := "u1", name := "role", value := some 1 }] }

/-!
## Helper lemmas
-/

lemma nameMatches_eq_any (n : String) (tags : List Tag) :
    nameMatches n tags = tags.any (fun t => t.Name == n) := by
  induction tags with
  | nil => rfl
  | cons t ts ih => cases h : t.Name == n <;> simp [nameMatches, h, ih]

lemma andMatches_eq_all (fs : List Filter) (tags : List Tag) :
    andMatches fs tags = fs.all (fun f => f.Matches tags) := by
  induction fs with
  | nil => rfl
  | cons f fs ih => cases h : f.Matches tags <;> simp [andMatches, h, ih]

lemma orMatches_eq_any (fs : List Filter) (tags : List Tag) :
    orMatches fs tags = fs.any (fun f => f.Matches tags) := by
  induction fs with
  | nil => rfl
  | cons f fs ih => cases h : f.Matches tags <;> simp [orMatches, h, ih]

/-!
## The claims
-/

/-- Claim C1, counterexample: `a AND b OR c` parses as
`a AND (b OR c)` (the ambiguous grammar is resolved by yacc's
shift preference, so the second connective wins), and that filter does
NOT match the tag set `{c}`, where the claim requires a match. -/
theorem C1_counterexample :
    ParseFilter "a AND b OR c" =
      some (Filter.AndFilter [Filter.NameFilter "a",
        Filter.OrFilter [Filter.NameFilter "b", Filter.NameFilter "c"]]) ∧
    Filter.Matches
      (Filter.AndFilter [Filter.NameFilter "a",
        Filter.OrFilter [Filter.NameFilter "b", Filter.NameFilter "c"]])
      [Tag.NamedTag "c"] = false :=
  ⟨rfl, rfl⟩

/-- Claim C1 as amended: parsing `a AND b OR c` yields a tree
equivalent to `a AND (b OR c)` — `AND` and `OR` have equal precedence
and associate to the right, so the leftmost connective becomes the
root — and the parsed filter matches `{a,b}`, does not match `{c}`,
and does not match `{a}`. -/
theorem C1_amended_equal_precedence :
    ParseFilter "a AND b OR c" =
      some (Filter.AndFilter [Filter.NameFilter "a",
        Filter.OrFilter [Filter.NameFilter "b", Filter.NameFilter "c"]]) ∧
    Filter.Matches
      (Filter.AndFilter [Filter.NameFilter "a",
        Filter.OrFilter [Filter.NameFilter "b", Filter.NameFilter "c"]])
      [Tag.NamedTag "a", Tag.NamedTag "b"] = true ∧
    Filter.Matches
      (Filter.AndFilter [Filter.NameFilter "a",
        Filter.OrFilter [Filter.NameFilter "b", Filter.NameFilter "c"]])
      [Tag.NamedTag "c"] = false ∧
    Filter.Matches
      (Filter.AndFilter [Filter.NameFilter "a",
        Filter.OrFilter [Filter.NameFilter "b", Filter.NameFilter "c"]])
      [Tag.NamedTag "a"] = false :=
  ⟨rfl, rfl, rfl, rfl⟩

/-- Claim C2: parsing `a AND b AND c` does NOT yield a single 3-child
conjunction: the generated tables never reach the flattening production
`and_expr AND expr` (after `expr AND expr` the parser always shifts a
following connective), so chains parse as right-nested binary nodes.
`a AND b AND c` yields `AndFilter [a, AndFilter [b, c]]`, and
`a AND b AND c AND d` continues the same right-nesting. -/
theorem C2_chain_parses_nested :
    ParseFilter "a AND b AND c" =
      some (Filter.AndFilter [Filter.NameFilter "a",
        Filter.AndFilter [Filter.NameFilter "b", Filter.NameFilter "c"]]) ∧
    ParseFilter "a AND b AND c AND d" =
      some (Filter.AndFilter [Filter.NameFilter "a",
        Filter.AndFilter [Filter.NameFilter "b",
          Filter.AndFilter [Filter.NameFilter "c", Filter.NameFilter "d"]]]) :=
  ⟨rfl, rfl⟩

/-- Claim C5: a name-presence filter matches a tag list exactly when
some tag in it has that name, whether or not that tag carries a
value. -/
theorem C5_name_presence (tags : List Tag) (n : String) :
    Filter.Matches (Filter.NameFilter n) tags = true ↔ ∃ t ∈ tags, t.Name = n := by
  simp [Filter.Matches, nameMatches_eq_any, List.any_eq_true]

/-- Claim C6: a conjunction matches iff every child matches, and a
disjunction matches iff some child matches. -/
theorem C6_conjunction_disjunction (fs : List Filter) (tags : List Tag) :
    (Filter.Matches (Filter.AndFilter fs) tags = true ↔
      ∀ f ∈ fs, f.Matches tags = true) ∧
    (Filter.Matches (Filter.OrFilter fs) tags = true ↔
      ∃ f ∈ fs, f.Matches tags = true) := by
  constructor
  · simp [Filter.Matches, andMatches_eq_all, List.all_eq_true]
  · simp [Filter.Matches, orMatches_eq_any, List.any_eq_true]

/-- Claim C9: a conjunction with no children matches every tag list
(the loop body never runs, `true` is returned), and a disjunction with
no children matches none (`false` is returned). -/
theorem C9_empty_children (tags : List Tag) :
    Filter.Matches (Filter.AndFilter []) tags = true ∧
    Filter.Matches (Filter.OrFilter []) tags = false :=
  ⟨rfl, rfl⟩

/-- Claim C3: comparison evaluation is first-match: for any tag list in
which the first tag named like the filter is plain, `Matches` returns
`false` — whatever tags (even valued ones of the same name) follow. -/
theorem C3_comparison_first_match (pre post : List Tag) (t : Tag) (n : String)
    (v : Int) (fn : Comparator)
    (hpre : ∀ u ∈ pre, u.Name ≠ n) (hname : t.Name = n) (hplain : t.HasValue = false) :
    Filter.Matches (Filter.ComparinsonFilter n v fn) (pre ++ t :: post) = false := by
  simp only [Filter.Matches]
  induction pre with
  | nil => simp [compMatches, hname, hplain]
  | cons u us ih =>
    have hu : (u.Name == n) = false := by
      simp only [beq_eq_false_iff_ne, ne_eq]
      exact hpre u (by simp)
    rw [List.cons_append, compMatches, hu]
    simp only [Bool.false_eq_true, if_false]
    exact ih (fun x hx => hpre x (by simp [hx]))

/-- Claim C3 instantiated as the spec's example: against the single
plain tag `{name: "x"}`, the comparison `x >= 1` does not match. -/
theorem C3_witness :
    Filter.Matches
      (Filter.ComparinsonFilter "x" 1 Comparator.GreaterThanOrEqual)
      [Tag.NamedTag "x"] = false :=
  C3_comparison_first_match [] [] (Tag.NamedTag "x") "x" 1
    Comparator.GreaterThanOrEqual (by simp) rfl rfl

/-- Claim C4: against the tag list whose (first) tag of the filter's
name is valued, each of the six comparators applies its mathematical
meaning to the tag's value and the literal; at `5 op 5` this gives
`==` true, `!=` false, `<` false, `>` false, `<=` true, `>=` true. -/
theorem C4_comparator_exhaustiveness :
    (∀ fn : Comparator, 1 ≤ fn → fn ≤ 6 → ∀ (n : String) (v c : Int),
      Filter.Matches (Filter.ComparinsonFilter n c fn) [Tag.ValueTag n v] =
        comparatorDenotes fn v c) ∧
    Filter.Matches (Filter.ComparinsonFilter "v" 5 Comparator.Equals)
      [Tag.ValueTag "v" 5] = true ∧
    Filter.Matches (Filter.ComparinsonFilter "v" 5 Comparator.NotEquals)
      [Tag.ValueTag "v" 5] = false ∧
    Filter.Matches (Filter.ComparinsonFilter "v" 5 Comparator.LessThan)
      [Tag.ValueTag "v" 5] = false ∧
    Filter.Matches (Filter.ComparinsonFilter "v" 5 Comparator.GreaterThan)
      [Tag.ValueTag "v" 5] = false ∧
    Filter.Matches (Filter.ComparinsonFilter "v" 5 Comparator.LessThanOrEqual)
      [Tag.ValueTag "v" 5] = true ∧
    Filter.Matches (Filter.ComparinsonFilter "v" 5 Comparator.GreaterThanOrEqual)
      [Tag.ValueTag "v" 5] = true := by
  refine ⟨?_, rfl, rfl, rfl, rfl, rfl, rfl⟩
  intro fn h1 h6 n v c
  interval_cases fn <;>
    simp [Filter.Matches, compMatches, comparatorDenotes, Tag.Name, Tag.HasValue,
      Tag.Value, Comparator.Equals, Comparator.NotEquals, Comparator.LessThan,
      Comparator.GreaterThan, Comparator.LessThanOrEqual, Comparator.GreaterThanOrEqual]

/-- Claim C4 instantiated: `v < 5` against the valued tag `v=7`. -/
theorem C4_witness :
    Filter.Matches (Filter.ComparinsonFilter "v" 5 Comparator.LessThan)
      [Tag.ValueTag "v" 7] = comparatorDenotes Comparator.LessThan 7 5 :=
  C4_comparator_exhaustiveness.1 Comparator.LessThan (by decide) (by decide) "v" 7 5

/-- Claim C10: a comparison whose comparator is outside the six valid
operators matches no tag list: a matching plain tag returns `false`, a
matching valued tag falls through the `switch` and the loop continues,
and the loop ends at `false`. -/
theorem C10_invalid_comparator (fn : Comparator)
    (hfn : fn ≠ Comparator.Equals ∧ fn ≠ Comparator.NotEquals ∧
      fn ≠ Comparator.LessThan ∧ fn ≠ Comparator.GreaterThan ∧
      fn ≠ Comparator.LessThanOrEqual ∧ fn ≠ Comparator.GreaterThanOrEqual)
    (tags : List Tag) (n : String) (v : Int) :
    Filter.Matches (Filter.ComparinsonFilter n v fn) tags = false := by
  have e1 : (fn == Comparator.Equals) = false := beq_eq_false_iff_ne.mpr hfn.1
  have e2 : (fn == Comparator.NotEquals) = false := beq_eq_false_iff_ne.mpr hfn.2.1
  have e3 : (fn == Comparator.LessThan) = false := beq_eq_false_iff_ne.mpr hfn.2.2.1
  have e4 : (fn == Comparator.GreaterThan) = false := beq_eq_false_iff_ne.mpr hfn.2.2.2.1
  have e5 : (fn == Comparator.LessThanOrEqual) = false :=
    beq_eq_false_iff_ne.mpr hfn.2.2.2.2.1
  have e6 : (fn == Comparator.GreaterThanOrEqual) = false :=
    beq_eq_false_iff_ne.mpr hfn.2.2.2.2.2
  simp only [Filter.Matches]
  induction tags with
  | nil => rfl
  | cons t ts ih =>
    rw [compMatches]
    cases h : t.Name == n
    · simpa [h] using ih
    · cases hv : t.HasValue
      · simp [h, hv]
      · simp [h, hv, e1, e2, e3, e4, e5, e6, ih]

/-- Claim C10 instantiated at the `Invalid` zero value, against a list
whose matching tag is valued (the loop continues past it) followed by a
plain one. -/
theorem C10_witness :
    Filter.Matches (Filter.ComparinsonFilter "x" 1 Comparator.Invalid)
      [Tag.ValueTag "x" 9, Tag.NamedTag "x"] = false :=
  C10_invalid_comparator Comparator.Invalid (by decide)
    [Tag.ValueTag "x" 9, Tag.NamedTag "x"] "x" 1

lemma matchingLoop_ok (getTags : File → Except String (List Tag))
    (tagsOf : File → List Tag) (flt : Filter) (files acc : List File)
    (h : ∀ f ∈ files, getTags f = Except.ok (tagsOf f)) :
    matchingLoop getTags flt acc files =
      Except.ok (acc ++ files.filter (fun f => flt.Matches (tagsOf f))) := by
  induction files generalizing acc with
  | nil => simp [matchingLoop]
  | cons f fs ih =>
    have hf : getTags f = Except.ok (tagsOf f) := h f (by simp)
    have hrest : ∀ x ∈ fs, getTags x = Except.ok (tagsOf x) :=
      fun x hx => h x (by simp [hx])
    simp only [matchingLoop, hf]
    cases hm : flt.Matches (tagsOf f) <;>
      simp [hm, ih _ hrest, List.filter_cons]

lemma matchingLoop_error (getTags : File → Except String (List Tag))
    (flt : Filter) (pre post : List File) (file : File) (e : String)
    (acc : List File)
    (hpre : ∀ f ∈ pre, ∃ ts, getTags f = Except.ok ts)
    (hfile : getTags file = Except.error e) :
    matchingLoop getTags flt acc (pre ++ file :: post) = Except.error e := by
  induction pre generalizing acc with
  | nil => simp only [List.nil_append, matchingLoop, hfile]
  | cons p ps ih =>
    obtain ⟨ts, hts⟩ := hpre p (by simp)
    simp only [List.cons_append, matchingLoop, hts]
    exact ih _ (fun x hx => hpre x (by simp [hx]))

/-- Claim C7: with every tag fetch succeeding, `GetMatchingFiles` is
exactly `GetAllFiles` filtered by the filter over each file's fetched
tags, in enumeration order; and whenever the tag fetch of some file
fails (the fetches before it succeeding), the whole operation returns
that failure and no partial result. -/
theorem C7_get_matching_files (files : List File)
    (getTags : File → Except String (List Tag)) (tagsOf : File → List Tag)
    (flt : Filter) :
    ((∀ f ∈ files, getTags f = Except.ok (tagsOf f)) →
      GetMatchingFiles (Except.ok files) getTags flt =
        Except.ok (files.filter (fun f => flt.Matches (tagsOf f)))) ∧
    (∀ pre file post e, files = pre ++ file :: post →
      (∀ f ∈ pre, ∃ ts, getTags f = Except.ok ts) →
      getTags file = Except.error e →
      GetMatchingFiles (Except.ok files) getTags flt = Except.error e) := by
  constructor
  · intro h
    exact matchingLoop_ok getTags tagsOf flt files [] h
  · intro pre file post e hsplit hpre hfile
    subst hsplit
    exact matchingLoop_error getTags flt pre post file e [] hpre hfile

/-- Claim C7 instantiated on the spec's §8 scenario: files F1
`{role=1, status}` and F2 `{role=2}` with the filter
`role == 1 OR status` yield exactly `[F1]`; with the fetch for F2
failing, the whole call returns that failure. -/
theorem C7_witness :
    GetMatchingFiles (Except.ok [wFile1, wFile2]) wGetTags wFilter =
      Except.ok [wFile1] ∧
    GetMatchingFiles (Except.ok [wFile1, wFile2]) wGetTagsBad wFilter =
      Except.error "disk fault" := by
  constructor
  · have h := (C7_get_matching_files [wFile1, wFile2] wGetTags wTagsOf wFilter).1
      (fun f _ => rfl)
    rw [h]
    rfl
  · exact (C7_get_matching_files [wFile1, wFile2] wGetTagsBad wTagsOf wFilter).2
      [wFile1] wFile2 [] "disk fault" rfl
      (by
        intro f hf
        rw [List.mem_singleton] at hf
        subst hf
        exact ⟨wTagsOf wFile1, rfl⟩)
      rfl

/-- Claim C8: `RemoveTag` called for a tag that is not on the file is a
silent no-op: it returns no error and the stored file and tag rows are
unchanged. -/
theorem C8_remove_tag_noop (db : SqliteDB) (f : File) (t : Tag)
    (h : ∀ r ∈ db.tags, ¬(r.uuid = f.uuid ∧ r.name = t.Name)) :
    RemoveTag db f t = (db, none) := by
  unfold RemoveTag
  have hfilter :
      db.tags.filter (fun r => !(r.uuid == f.uuid && r.name == t.Name)) = db.tags := by
    apply List.filter_eq_self.mpr
    intro r hr
    have hr2 := h r hr
    simp only [not_and] at hr2
    simp only [Bool.not_eq_true', Bool.and_eq_false_iff, beq_eq_false_iff_ne, ne_eq]
    by_cases hu : r.uuid = f.uuid
    · exact Or.inr (hr2 hu)
    · exact Or.inl hu
  rw [hfilter]

/-- Claim C8 instantiated: removing the absent tag `status` from file
`u1` leaves the database untouched and reports no error. -/
theorem C8_witness :
    RemoveTag wDB wFile1 (Tag.NamedTag "status") = (wDB, none) :=
  C8_remove_tag_noop wDB wFile1 (Tag.NamedTag "status") (by decide)

end Tagger

